import Mathlib

/-!
Verification development for the SmartDoc document question-answering
application.  The repository ships a Next.js frontend (the `Home` page
component, which manages uploads, the document history list, selection,
question asking and deletion) and describes a retrieval-augmented
question-answering backend (Chunker, VectorIndex, DocumentStore,
Retriever, AnswerSynthesizer, IngestionPipeline).  The frontend component
is embedded below directly from its source; the backend core is not part
of the checked-in sources, so its operations are modelled from the
specification text and marked as such.

Numeric convention: embedding vectors are modelled with exact integer
components (a fixed-point reading of the float vectors), and the
similarity score of the specification — cosine similarity over normalized
sentence-embedding vectors, which the spec's design notes reduce to a dot
product — is the dot product of these vectors.  All ranking and top-k
statements are invariant under this exact reading.
-/

namespace SmartDoc

/-! ## Backend data model (modelled from the spec) -/

/-- Modelled from the spec: a Chunk belongs to exactly one Document and has an
ordered position index within the document and a text span. -/
structure Chunk where
  docId : String
  pos : Nat
  text : String
deriving DecidableEq, Repr

/-- Modelled from the spec: a VectorIndex entry is (vector, chunk id, document
id); the chunk id is the owning document's id together with the chunk's
position index. -/
structure VecEntry where
  docId : String
  chunkPos : Nat
  vec : List ℤ
deriving DecidableEq, Repr

/-- Modelled from the spec: Document status (`pending` never outlives an
ingestion run, so only the terminal states are observable in the store). -/
inductive DocStatus where
  | indexed
  | failed
deriving DecidableEq, Repr

/-- Modelled from the spec: a DocumentStore record maps a document identity to
its status and its ordered chunks. -/
structure DocRecord where
  docId : String
  status : DocStatus
  chunks : List Chunk
deriving DecidableEq, Repr

/-- Modelled from the spec: the shared backend state — the DocumentStore
(owner of Document and Chunk records) and the VectorIndex (owner of vectors
with back-references), kept in insertion order. -/
structure BackendState where
  docs : List DocRecord
  index : List VecEntry
deriving DecidableEq, Repr

/-- Modelled from the spec: similarity metric — cosine similarity over
normalized embedding vectors, i.e. the dot product (see the spec's design
note on normalization). -/
def dot : List ℤ → List ℤ → ℤ
  | a :: as, b :: bs => a * b + dot as bs
  | _, _ => 0

/-! ## VectorIndex search (modelled from the spec) -/

/-- An index entry together with its insertion position and its similarity
score against the current query. -/
structure Scored where
  idx : Nat
  entry : VecEntry
  score : ℤ
deriving DecidableEq, Repr

/-- Ranking order of search results: higher score first, ties broken by
insertion order (stable), as the VectorIndex contract demands. -/
def rankLE (a b : Scored) : Prop :=
  b.score < a.score ∨ (a.score = b.score ∧ a.idx ≤ b.idx)

instance : DecidableRel rankLE := fun a b => by
  unfold rankLE; infer_instance

instance : IsTotal Scored rankLE := by
  constructor
  intro a b
  rcases lt_trichotomy a.score b.score with h | h | h
  · exact Or.inr (Or.inl h)
  · rcases Nat.le_total a.idx b.idx with hi | hi
    · exact Or.inl (Or.inr ⟨h, hi⟩)
    · exact Or.inr (Or.inr ⟨h.symm, hi⟩)
  · exact Or.inl (Or.inl h)

instance : IsTrans Scored rankLE := by
  constructor
  intro a b c hab hbc
  rcases hab with h1 | ⟨e1, i1⟩
  · rcases hbc with h2 | ⟨e2, i2⟩
    · exact Or.inl (h2.trans h1)
    · exact Or.inl (e2 ▸ h1)
  · rcases hbc with h2 | ⟨e2, i2⟩
    · exact Or.inl (e1 ▸ h2)
    · exact Or.inr ⟨e1.trans e2, i1.trans i2⟩

/-- Modelled from the spec: the optional document filter restricts search to
vectors belonging to that document. -/
def matchesFilter (f : Option String) (e : VecEntry) : Bool :=
  match f with
  | none => true
  | some d => e.docId == d

/-- The (filtered) candidates of a search, scored against the query vector and
tagged with their insertion position in the index. -/
def scoredCandidates (q : List ℤ) (f : Option String) (idx : List VecEntry) :
    List Scored :=
  ((idx.enum).filter (fun p => matchesFilter f p.2)).map
    (fun p => ⟨p.1, p.2, dot q p.2.vec⟩)

/-- Exact nearest-neighbor search, before truncation to k: a linear scan with
similarity scoring, ordered by descending score with ties broken by insertion
order. -/
def searchRanked (q : List ℤ) (f : Option String) (idx : List VecEntry) :
    List Scored :=
  List.insertionSort rankLE (scoredCandidates q f idx)

/-- Modelled from the spec: `search(query_vector, k, document_filter?)` returns
up to k nearest entries as (chunk id, score) pairs, descending score, stable
ties. -/
def search (q : List ℤ) (k : Nat) (f : Option String) (idx : List VecEntry) :
    List ((String × Nat) × ℤ) :=
  ((searchRanked q f idx).take k).map
    (fun s => ((s.entry.docId, s.entry.chunkPos), s.score))

/-- Modelled from the spec: `remove_document` removes all vectors of the given
document from the index; idempotent. -/
def removeDocVectors (d : String) (idx : List VecEntry) : List VecEntry :=
  idx.filter (fun e => e.docId ≠ d)

/-- Strict-descent check on a list of scores, the reading of "strictly
descending by score" from the spec's testable-properties section. -/
def strictlyDesc : List ℤ → Bool
  | a :: b :: t => decide (b < a) && strictlyDesc (b :: t)
  | _ => true

/-! ## Chunker (modelled from the spec) -/

/-- Sliding character windows of width maxSize advancing by step (at least 1);
the fuel argument bounds the recursion by the text length. -/
def windowsGo : Nat → List Char → Nat → Nat → List (List Char)
  | 0, cs, _, _ => [cs]
  | fuel + 1, cs, maxSize, step =>
    if cs.length ≤ maxSize then [cs]
    else cs.take maxSize :: windowsGo fuel (cs.drop (max step 1)) maxSize step

/-- Modelled from the spec: `chunk(text, max_size, overlap)` returns the
ordered chunk sequence of a document — bounded-size character windows with
`overlap` shared characters between consecutive chunks; empty or
whitespace-only input produces an empty sequence, not an error. -/
def chunkText (docId : String) (text : String) (maxSize overlap : Nat) :
    List Chunk :=
  if text.data.all Char.isWhitespace then []
  else
    ((windowsGo text.length text.data maxSize (maxSize - overlap)).enum).map
      (fun p => ⟨docId, p.1, String.mk p.2⟩)

/-! ## IngestionPipeline (modelled from the spec) -/

/-- Modelled from the spec: order-preserving batch embedding of the chunks;
`none` is the `EmbeddingUnavailable` condition of the external Embedder. -/
def embedAll (embed : String → Option (List ℤ)) :
    List Chunk → Option (List (Chunk × List ℤ))
  | [] => some []
  | c :: rest =>
    match embed c.text, embedAll embed rest with
    | some v, some t => some ((c, v) :: t)
    | _, _ => none

/-- Modelled from the spec: deleting a document cascades to its chunks and
vectors — the DocumentStore record and all VectorIndex entries of the
document are removed; idempotent. -/
def removeDocument (d : String) (s : BackendState) : BackendState :=
  ⟨s.docs.filter (fun r => r.docId ≠ d), removeDocVectors d s.index⟩

/-- Modelled from the spec: the IngestionPipeline for one document.
Re-ingestion replaces wholesale (delete-then-add).  Chunks and vectors are
staged and committed only on full success; on an embedding failure the
staging area is discarded and the document ends fully absent, never
half-indexed. -/
def ingest (embed : String → Option (List ℤ)) (maxSize overlap : Nat)
    (s : BackendState) (d : String) (text : String) : BackendState × Bool :=
  match embedAll embed (chunkText d text maxSize overlap) with
  | none => (removeDocument d s, false)
  | some pairs =>
    (⟨(removeDocument d s).docs ++ [⟨d, .indexed, chunkText d text maxSize overlap⟩],
      (removeDocument d s).index ++ pairs.map (fun p => ⟨d, p.1.pos, p.2⟩)⟩,
      true)

/-! ## Retriever and AnswerSynthesizer (modelled from the spec) -/

/-- Modelled from the spec: resolve a chunk id returned by the index to its
full Chunk record in the DocumentStore; `none` marks a stale entry. -/
def resolveChunk (s : BackendState) (cid : String × Nat) : Option Chunk :=
  match s.docs.find? (fun r => r.docId == cid.1) with
  | none => none
  | some r => r.chunks.find? (fun c => c.pos == cid.2)

/-- Modelled from the spec: `retrieve` — search the index with the embedded
query, drop entries below the minimum-score threshold, resolve chunk ids to
Chunk records and silently drop any stale id. -/
def retrieve (qvec : List ℤ) (s : BackendState) (k : Nat) (f : Option String)
    (minScore : ℤ) : List (Chunk × ℤ) :=
  (search qvec k f s.index).filterMap
    (fun p =>
      if minScore ≤ p.2 then (resolveChunk s p.1).map (fun c => (c, p.2))
      else none)

/-- Modelled from the spec: a SourceCitation is a chunk text excerpt together
with the document identity. -/
structure SourceCitation where
  excerpt : String
  docId : String
deriving DecidableEq, Repr

/-- Modelled from the spec: an Answer is synthesized text plus an ordered
citation list. -/
structure Answer where
  text : String
  sources : List SourceCitation
deriving DecidableEq, Repr

/-- The decline message of the InsufficientContext outcome. -/
def declineText : String :=
  "The question cannot be answered from the provided documents."

/-- Failure conditions of question answering that are surfaced as errors. -/
inductive AskErr where
  | embeddingUnavailable
  | generationUnavailable
deriving DecidableEq, Repr

/-- Modelled from the spec: build the bounded prompt context — retrieved
chunks arrive best-first, so respecting the budget by dropping
lowest-scored chunks first keeps a prefix whose total text fits. -/
def takeBudget (budget : Nat) : List (Chunk × ℤ) → List (Chunk × ℤ)
  | [] => []
  | c :: rest =>
    if c.1.text.length ≤ budget then c :: takeBudget (budget - c.1.text.length) rest
    else []

/-- The citation attached for a chunk included in the context. -/
def citationOf (c : Chunk) : SourceCitation := ⟨c.text, c.docId⟩

/-- The prompt supplied to the generative collaborator: the included context
followed by the question. -/
def promptOf (query : String) (ctx : List (Chunk × ℤ)) : String :=
  String.join (ctx.map (fun c => c.1.text)) ++ query

/-- Modelled from the spec: `synthesize(query, retrieved_chunks)` — empty
usable context yields a valid declining Answer with no citations (not an
error); otherwise the external model is invoked and citations are attached
only for the chunks actually included in the context. -/
def synthesize (generate : String → Option String) (query : String)
    (retrieved : List (Chunk × ℤ)) (budget : Nat) : Except AskErr Answer :=
  match takeBudget budget retrieved with
  | [] => .ok ⟨declineText, []⟩
  | c :: ctx =>
    match generate (promptOf query (c :: ctx)) with
    | none => .error .generationUnavailable
    | some t => .ok ⟨t, (c :: ctx).map (fun p => citationOf p.1)⟩

/-- Modelled from the spec: the caller-facing `ask` operation — embed the
question, retrieve, synthesize.  It reads the shared state and never
mutates it. -/
def ask (embed : String → Option (List ℤ)) (generate : String → Option String)
    (s : BackendState) (question : String) (f : Option String)
    (k budget : Nat) (minScore : ℤ) : Except AskErr Answer :=
  match embed question with
  | none => .error .embeddingUnavailable
  | some qv => synthesize generate question (retrieve qv s k f minScore) budget

/-- Modelled from the spec: the request-serving wrapper of `ask` — question
answering performs no mutation, so the shared backend state is returned
unchanged next to the response. -/
def serveAsk (embed : String → Option (List ℤ))
    (generate : String → Option String) (k budget : Nat) (minScore : ℤ)
    (bs : BackendState) (question : String) (f : Option String) :
    BackendState × Except AskErr Answer :=
  (bs, ask embed generate bs question f k budget minScore)

/-- Store well-formedness: every chunk held by a DocumentStore record carries
its owning record's document id (chunks belong to exactly one document). -/
def WFStore (s : BackendState) : Prop :=
  ∀ r ∈ s.docs, ∀ c ∈ r.chunks, c.docId = r.docId

instance (s : BackendState) : Decidable (WFStore s) := by
  unfold WFStore; infer_instance

/-! ## Frontend: the Home page component
Embedded from src/frontend/app/components/DarkModeToggle.tsx (the `Home`
component).  React state hooks become record fields; each handler becomes a
function from the state (plus the awaited network outcome, where the handler
awaits a request) to the next state. -/

/-- A document history entry as the frontend keeps it: uploaded file name and
upload timestamp. -/
structure FrontDoc where
  name : String
  uploadedAt : String
deriving DecidableEq, Repr

/-- The form data of a request to the `/ask` endpoint: the `question` field,
and the optional `document` field. -/
structure AskRequest where
  question : String
  docFilter : Option String
deriving DecidableEq, Repr

/-- The `useState` hooks of the Home component. -/
structure HomeState where
  files : List String
  documents : List FrontDoc
  question : String
  answer : Option Answer
  isLoading : Bool
  selectedDocument : Option String
deriving DecidableEq, Repr

/-- The initial hook values of the Home component. -/
def initialHomeState : HomeState := ⟨[], [], "", none, false, none⟩

/-- The outcome of an awaited axios request, as seen by a handler's
try/catch. -/
inductive ReqOutcome where
  | success (a : Answer)
  | failure
deriving DecidableEq, Repr

/-- JS truthiness applied to the nullable string `selectedDocument` in
`if (selectedDocument) formData.append('document', selectedDocument)`:
null and the empty string are falsy, everything else appends the field. -/
def requestFilter (sel : Option String) : Option String :=
  match sel with
  | none => none
  | some s => if s = "" then none else some s

/-- handleAskQuestion: the `!question.trim()` guard reports a validation
toast and returns before any request; otherwise the question (and the
document filter, per JS truthiness) is posted to `/ask`, the answer is set on
success, and the finally-block clears the loading flag.  The returned list
holds the requests issued by the call. -/
def handleAskQuestion (s : HomeState) (outcome : ReqOutcome) :
    HomeState × List AskRequest :=
  if s.question.data.all Char.isWhitespace then (s, [])
  else
    match outcome with
    | .success a =>
      ({ s with answer := some a, isLoading := false },
        [⟨s.question, requestFilter s.selectedDocument⟩])
    | .failure =>
      ({ s with isLoading := false },
        [⟨s.question, requestFilter s.selectedDocument⟩])

/-- handleUpload: with no selected files it reports a toast and returns;
otherwise the files are posted and, on success, appended to the document
history (name plus fresh timestamp) and the selection of files is cleared;
the finally-block clears the loading flag. -/
def handleUpload (now : String) (ok : Bool) (s : HomeState) : HomeState :=
  if s.files = [] then s
  else if ok then
    { s with documents := s.documents ++ s.files.map (fun n => ⟨n, now⟩),
             files := [], isLoading := false }
  else { s with isLoading := false }

/-- The TrashIcon onClick of a document history entry: filters the entry's
name out of the local documents list and clears the selection when that
document was selected.  No request of any kind is issued. -/
def handleDeleteDoc (n : String) (s : HomeState) : HomeState :=
  { s with
      documents := s.documents.filter (fun d => d.name ≠ n),
      selectedDocument :=
        if s.selectedDocument = some n then none else s.selectedDocument }

/-- The Select onClick of the i-th rendered document history entry: copies
that listed document's name into the selection. -/
def handleSelectDoc (i : Nat) (s : HomeState) : HomeState :=
  match s.documents.get? i with
  | some d => { s with selectedDocument := some d.name }
  | none => s

/-- handleSummarize: posts to `/summarize` and sets the answer on success;
documents, files, question and selection are untouched. -/
def handleSummarize (outcome : ReqOutcome) (s : HomeState) : HomeState :=
  match outcome with
  | .success a => { s with answer := some a, isLoading := false }
  | .failure => { s with isLoading := false }

/-- The dropzone onDrop: replaces the selected files. -/
def handleDrop (names : List String) (s : HomeState) : HomeState :=
  { s with files := names }

/-- The question input onChange: sets the question text. -/
def handleSetQuestion (q : String) (s : HomeState) : HomeState :=
  { s with question := q }

/-- The user-triggerable operations of the Home component (handleDownload
builds a blob from existing state and sets no hook, so it is the identity on
the component state). -/
inductive HomeOp where
  | drop (names : List String)
  | upload (now : String) (ok : Bool)
  | select (i : Nat)
  | trash (n : String)
  | askQ (outcome : ReqOutcome)
  | edit (q : String)
  | summarizeDoc (outcome : ReqOutcome)
  | download

/-- One step of the Home component under a user-triggered operation. -/
def applyHomeOp (s : HomeState) : HomeOp → HomeState
  | .drop names => handleDrop names s
  | .upload now ok => handleUpload now ok s
  | .select i => handleSelectDoc i s
  | .trash n => handleDeleteDoc n s
  | .askQ o => (handleAskQuestion s o).1
  | .edit q => handleSetQuestion q s
  | .summarizeDoc o => handleSummarize o s
  | .download => s

/-- The trash action on a document history entry, viewed against the shared
backend: the onClick only rewrites local component state and issues no
request, so the backend state rides along unchanged. -/
def uiDeleteDocument (n : String) (hs : HomeState) (bs : BackendState) :
    HomeState × BackendState :=
  (handleDeleteDoc n hs, bs)

/-- The selection invariant of the Home component: the selected document is
null or the name of a currently listed document. -/
def SelInv (s : HomeState) : Prop :=
  ∀ n, s.selectedDocument = some n → n ∈ s.documents.map FrontDoc.name

instance (s : HomeState) : Decidable (SelInv s) :=
  match h : s.selectedDocument with
  | none => isTrue (fun n hn => by rw [h] at hn; cases hn)
  | some m =>
    if hm : m ∈ s.documents.map FrontDoc.name then
      isTrue (fun n hn => by
        rw [h, Option.some_inj] at hn
        exact hn ▸ hm)
    else
      isFalse (fun hinv => hm (hinv m h))

/-! ## Helper lemmas -/

theorem handleAskQuestion_frame (s : HomeState) (o : ReqOutcome) :
    (handleAskQuestion s o).1.files = s.files ∧
    (handleAskQuestion s o).1.documents = s.documents ∧
    (handleAskQuestion s o).1.question = s.question ∧
    (handleAskQuestion s o).1.selectedDocument = s.selectedDocument := by
  unfold handleAskQuestion
  by_cases h : s.question.data.all Char.isWhitespace = true <;>
    cases o <;> simp [h]

theorem embedAll_map_fst (embed : String → Option (List ℤ)) :
    ∀ (cks : List Chunk) (pairs : List (Chunk × List ℤ)),
      embedAll embed cks = some pairs → pairs.map Prod.fst = cks := by
  intro cks
  induction cks with
  | nil =>
    intro pairs h
    simp only [embedAll, Option.some_inj] at h
    rw [← h]
    rfl
  | cons c rest ih =>
    intro pairs h
    simp only [embedAll] at h
    cases hv : embed c.text with
    | none => rw [hv] at h; cases h
    | some v =>
      rw [hv] at h
      cases hr : embedAll embed rest with
      | none => rw [hr] at h; cases h
      | some t =>
        rw [hr] at h
        cases h
        simp [ih t hr]

theorem takeBudget_mem :
    ∀ (budget : Nat) (l : List (Chunk × ℤ)) (x : Chunk × ℤ),
      x ∈ takeBudget budget l → x ∈ l := by
  intro budget l
  induction l generalizing budget with
  | nil => intro x hx; simp [takeBudget] at hx
  | cons c rest ih =>
    intro x hx
    simp only [takeBudget] at hx
    by_cases hb : c.1.text.length ≤ budget
    · rw [if_pos hb] at hx
      rcases List.mem_cons.mp hx with hx | hx
      · exact hx ▸ List.mem_cons_self c rest
      · exact List.mem_cons_of_mem c (ih _ x hx)
    · rw [if_neg hb] at hx
      cases hx

theorem ask_decline_of_retrieve_empty (embed : String → Option (List ℤ))
    (generate : String → Option String) (s : BackendState) (question : String)
    (f : Option String) (k budget : Nat) (minScore : ℤ) (qv : List ℤ)
    (he : embed question = some qv)
    (hr : retrieve qv s k f minScore = []) :
    ask embed generate s question f k budget minScore =
      Except.ok ⟨declineText, []⟩ := by
  unfold ask
  rw [he]
  show synthesize generate question (retrieve qv s k f minScore) budget = _
  unfold synthesize
  rw [hr]
  rfl

theorem search_filter_docId (q : List ℤ) (k : Nat) (d : String)
    (idx : List VecEntry) :
    ∀ p ∈ search q k (some d) idx, p.1.1 = d := by
  intro p hp
  unfold search at hp
  rcases List.mem_map.mp hp with ⟨x, hx, hxp⟩
  have hx2 : x ∈ searchRanked q (some d) idx := List.take_subset k _ hx
  unfold searchRanked at hx2
  rw [List.mem_insertionSort] at hx2
  unfold scoredCandidates at hx2
  rcases List.mem_map.mp hx2 with ⟨pp, hpp, hppx⟩
  have hf := (List.mem_filter.mp hpp).2
  have hd : pp.2.docId = d := by simpa [matchesFilter] using hf
  rw [← hxp, ← hppx]
  exact hd

theorem resolve_docId (s : BackendState) (d : String) (pos : Nat) (c : Chunk)
    (hwf : WFStore s) (h : resolveChunk s (d, pos) = some c) : c.docId = d := by
  unfold resolveChunk at h
  cases hr : s.docs.find? (fun r => r.docId == (d, pos).1) with
  | none => rw [hr] at h; cases h
  | some r =>
    rw [hr] at h
    have hrmem := List.mem_of_find?_eq_some hr
    have hrid : r.docId = d := by simpa using List.find?_some hr
    have hcmem := List.mem_of_find?_eq_some h
    rw [hwf r hrmem c hcmem, hrid]

theorem retrieve_filter_docId (qv : List ℤ) (s : BackendState) (k : Nat)
    (d : String) (minScore : ℤ) (hwf : WFStore s) :
    ∀ pr ∈ retrieve qv s k (some d) minScore, pr.1.docId = d := by
  intro pr hpr
  unfold retrieve at hpr
  rcases List.mem_filterMap.mp hpr with ⟨p, hp, hpe⟩
  by_cases hm : minScore ≤ p.2
  · rw [if_pos hm] at hpe
    cases hc : resolveChunk s p.1 with
    | none => rw [hc] at hpe; cases hpe
    | some c =>
      rw [hc] at hpe
      cases hpe
      have hpd := search_filter_docId qv k d s.index p hp
      exact (resolve_docId s p.1.1 p.1.2 c hwf hc).trans hpd
  · rw [if_neg hm] at hpe
    cases hpe

theorem selInv_preserved (s : HomeState) (op : HomeOp) (hinv : SelInv s) :
    SelInv (applyHomeOp s op) := by
  cases op with
  | drop names => exact fun n hn => hinv n hn
  | upload now ok =>
    intro n hn
    replace hn : (handleUpload now ok s).selectedDocument = some n := hn
    show n ∈ (handleUpload now ok s).documents.map FrontDoc.name
    unfold handleUpload at hn ⊢
    by_cases hf : s.files = []
    · rw [if_pos hf] at hn ⊢
      exact hinv n hn
    · rw [if_neg hf] at hn ⊢
      cases ok with
      | false => exact hinv n hn
      | true =>
        simp only [if_pos] at hn ⊢
        rw [List.map_append]
        exact List.mem_append.mpr (Or.inl (hinv n hn))
  | select i =>
    intro n hn
    replace hn : (handleSelectDoc i s).selectedDocument = some n := hn
    show n ∈ (handleSelectDoc i s).documents.map FrontDoc.name
    unfold handleSelectDoc at hn ⊢
    cases hg : s.documents.get? i with
    | none =>
      rw [hg] at hn
      exact hinv n hn
    | some dd =>
      rw [hg] at hn
      replace hn : some dd.name = some n := hn
      have hn2 : dd.name = n := Option.some_inj.mp hn
      show n ∈ s.documents.map FrontDoc.name
      exact hn2 ▸ List.mem_map.mpr ⟨dd, List.get?_mem hg, rfl⟩
  | trash m =>
    intro n hn
    replace hn : (handleDeleteDoc m s).selectedDocument = some n := hn
    show n ∈ (handleDeleteDoc m s).documents.map FrontDoc.name
    unfold handleDeleteDoc at hn ⊢
    by_cases hsel : s.selectedDocument = some m
    · rw [if_pos hsel] at hn
      cases hn
    · rw [if_neg hsel] at hn
      have hmem := hinv n hn
      have hnm : n ≠ m := fun e => hsel (by rw [hn, e])
      rcases List.mem_map.mp hmem with ⟨dd, hdd, hname⟩
      refine List.mem_map.mpr ⟨dd, List.mem_filter.mpr ⟨hdd, ?_⟩, hname⟩
      simpa [hname] using hnm
  | askQ o =>
    intro n hn
    have h := handleAskQuestion_frame s o
    replace hn : (handleAskQuestion s o).1.selectedDocument = some n := hn
    rw [h.2.2.2] at hn
    show n ∈ (handleAskQuestion s o).1.documents.map FrontDoc.name
    rw [h.2.1]
    exact hinv n hn
  | edit q => exact fun n hn => hinv n hn
  | summarizeDoc o =>
    cases o with
    | success a => exact fun n hn => hinv n hn
    | failure => exact fun n hn => hinv n hn
  | download => exact hinv

theorem ingest_fst_eq (embed : String → Option (List ℤ))
    (maxSize overlap : Nat) (s : BackendState) (d text : String) :
    ∀ r ∈ (ingest embed maxSize overlap s d text).1.docs, r.docId = d →
      r.status = DocStatus.indexed ∧
      ∀ c ∈ r.chunks, ∃ e ∈ (ingest embed maxSize overlap s d text).1.index,
        e.docId = d ∧ e.chunkPos = c.pos := by
  cases hE : embedAll embed (chunkText d text maxSize overlap) with
  | none =>
    intro r hr hd
    simp only [ingest, hE] at hr
    have := (List.mem_filter.mp hr).2
    exact absurd hd (by simpa using this)
  | some pairs =>
    intro r hr hd
    simp only [ingest, hE] at hr
    rcases List.mem_append.mp hr with h1 | h1
    · have := (List.mem_filter.mp h1).2
      exact absurd hd (by simpa using this)
    · have hr2 : r = ⟨d, DocStatus.indexed, chunkText d text maxSize overlap⟩ := by
        simpa using h1
      subst hr2
      refine ⟨rfl, ?_⟩
      intro c hc
      have hc2 : c ∈ pairs.map Prod.fst := by
        rw [embedAll_map_fst embed _ pairs hE]
        exact hc
      rcases List.mem_map.mp hc2 with ⟨p, hp, hpc⟩
      refine ⟨⟨d, p.1.pos, p.2⟩, ?_, rfl, ?_⟩
      · simp only [ingest, hE]
        exact List.mem_append.mpr (Or.inr (List.mem_map.mpr ⟨p, hp, rfl⟩))
      · show p.1.pos = c.pos
        rw [hpc]

theorem ingest_rollback (embed : String → Option (List ℤ))
    (maxSize overlap : Nat) (s : BackendState) (d text : String)
    (hfail : (ingest embed maxSize overlap s d text).2 = false) :
    (∀ r ∈ (ingest embed maxSize overlap s d text).1.docs, r.docId ≠ d) ∧
    (∀ e ∈ (ingest embed maxSize overlap s d text).1.index, e.docId ≠ d) := by
  cases hE : embedAll embed (chunkText d text maxSize overlap) with
  | none =>
    constructor
    · intro r hr
      simp only [ingest, hE] at hr
      have := (List.mem_filter.mp hr).2
      simpa using this
    · intro e he
      simp only [ingest, hE, removeDocument, removeDocVectors] at he
      have := (List.mem_filter.mp he).2
      simpa using this
  | some pairs =>
    simp only [ingest, hE] at hfail
    cases hfail

/-! ## Claim theorems -/

/-- C1 (code bug, evaluated at the failing input): the caller-facing delete —
the trash action of a document history entry — does NOT remove the document's
chunks and vectors from the backend stores.  With document "A" listed and
indexed (one chunk, one vector), the trash action clears the local list and
the selection, but the backend state is untouched and a subsequent search
still returns A's chunk id. -/
theorem c1_ui_delete_leaves_backend_and_search_intact :
    (uiDeleteDocument "A" ⟨[], [⟨"A", "t1"⟩], "q", none, false, some "A"⟩
        ⟨[⟨"A", .indexed, [⟨"A", 0, "alpha"⟩]⟩], [⟨"A", 0, [1]⟩]⟩).2 =
      ⟨[⟨"A", .indexed, [⟨"A", 0, "alpha"⟩]⟩], [⟨"A", 0, [1]⟩]⟩ ∧
    (uiDeleteDocument "A" ⟨[], [⟨"A", "t1"⟩], "q", none, false, some "A"⟩
        ⟨[⟨"A", .indexed, [⟨"A", 0, "alpha"⟩]⟩], [⟨"A", 0, [1]⟩]⟩).1.documents = [] ∧
    search [1] 5 none
        (uiDeleteDocument "A" ⟨[], [⟨"A", "t1"⟩], "q", none, false, some "A"⟩
          ⟨[⟨"A", .indexed, [⟨"A", 0, "alpha"⟩]⟩], [⟨"A", 0, [1]⟩]⟩).2.index =
      [(("A", 0), 1)] :=
  ⟨rfl, by decide, by decide⟩

/-- C2 (spec-modelled): ingestion is atomic — any record the ingested
document has in the resulting DocumentStore is `indexed` with every one of
its chunks covered by a vector of that document in the VectorIndex, and on a
mid-pipeline failure the document ends fully absent (no chunk records, no
vectors). -/
theorem c2_ingestion_atomic (embed : String → Option (List ℤ))
    (maxSize overlap : Nat) (s : BackendState) (d text : String) :
    (∀ r ∈ (ingest embed maxSize overlap s d text).1.docs, r.docId = d →
        r.status = DocStatus.indexed ∧
        ∀ c ∈ r.chunks, ∃ e ∈ (ingest embed maxSize overlap s d text).1.index,
          e.docId = d ∧ e.chunkPos = c.pos) ∧
    ((ingest embed maxSize overlap s d text).2 = false →
        (∀ r ∈ (ingest embed maxSize overlap s d text).1.docs, r.docId ≠ d) ∧
        (∀ e ∈ (ingest embed maxSize overlap s d text).1.index, e.docId ≠ d)) :=
  ⟨ingest_fst_eq embed maxSize overlap s d text,
   ingest_rollback embed maxSize overlap s d text⟩

/-- Witness for C2: a failing embedder on the two-chunk text "hello" leaves
no vector for document "A". -/
theorem c2_ingestion_atomic_witness :
    ((ingest (fun _ => none) 3 1 ⟨[], []⟩ "A" "hello").2 = false) ∧
    (∀ e ∈ (ingest (fun _ => none) 3 1 ⟨[], []⟩ "A" "hello").1.index,
      e.docId ≠ "A") :=
  ⟨rfl, ((c2_ingestion_atomic (fun _ => none) 3 1 ⟨[], []⟩ "A" "hello").2 rfl).2⟩

/-- C3 (spec-modelled): every SourceCitation of a successfully synthesized
Answer corresponds to a chunk that was included in the synthesizer's context,
which is itself part of the retrieved set — no fabricated citation. -/
theorem c3_citations_from_context (generate : String → Option String)
    (query : String) (retrieved : List (Chunk × ℤ)) (budget : Nat) (a : Answer)
    (h : synthesize generate query retrieved budget = Except.ok a) :
    ∀ cit ∈ a.sources, ∃ p, p ∈ takeBudget budget retrieved ∧ p ∈ retrieved ∧
      cit = citationOf p.1 := by
  intro cit hcit
  unfold synthesize at h
  cases hctx : takeBudget budget retrieved with
  | nil =>
    rw [hctx] at h
    cases h
    cases hcit
  | cons c ctx =>
    rw [hctx] at h
    replace h : (match generate (promptOf query (c :: ctx)) with
        | none => Except.error AskErr.generationUnavailable
        | some t =>
          Except.ok ⟨t, (c :: ctx).map (fun p => citationOf p.1)⟩) =
        Except.ok a := h
    cases hg : generate (promptOf query (c :: ctx)) with
    | none => rw [hg] at h; cases h
    | some t =>
      rw [hg] at h
      cases h
      rcases List.mem_map.mp hcit with ⟨p, hp, hpc⟩
      have hp2 : p ∈ takeBudget budget retrieved := by rw [hctx]; exact hp
      exact ⟨p, hp, takeBudget_mem budget retrieved p hp2, hpc.symm⟩

/-- Witness for C3: one retrieved chunk, generation succeeds, and the single
citation traces back to that chunk. -/
theorem c3_citations_from_context_witness :
    (synthesize (fun _ => some "ans") "q" [(⟨"A", 0, "alpha"⟩, 1)] 100 =
      Except.ok ⟨"ans", [citationOf ⟨"A", 0, "alpha"⟩]⟩) ∧
    (∃ p, p ∈ takeBudget 100 [(⟨"A", 0, "alpha"⟩, 1)] ∧
      p ∈ [(⟨"A", 0, "alpha"⟩, 1)] ∧
      citationOf ⟨"A", 0, "alpha"⟩ = citationOf p.1) :=
  ⟨rfl,
   c3_citations_from_context (fun _ => some "ans") "q" [(⟨"A", 0, "alpha"⟩, 1)]
     100 ⟨"ans", [citationOf ⟨"A", 0, "alpha"⟩]⟩ rfl
     (citationOf ⟨"A", 0, "alpha"⟩) (by decide)⟩

/-- C4 (code bug, evaluated at the failing input): re-uploading a document
under the same identity appends a second history entry instead of replacing
the prior one — after re-uploading "A" the document list holds two entries
named "A", so the stored entries for "A" do not reflect only the new
content. -/
theorem c4_reupload_appends_duplicate_entry :
    (handleUpload "t2" true ⟨["A"], [⟨"A", "t1"⟩], "", none, false, none⟩).documents =
      [⟨"A", "t1"⟩, ⟨"A", "t2"⟩] ∧
    ((handleUpload "t2" true ⟨["A"], [⟨"A", "t1"⟩], "", none, false, none⟩).documents.filter
        (fun d => d.name = "A")).length = 2 :=
  ⟨by decide, by decide⟩

/-- C5 counterexample: with two entries carrying the same vector (equal
scores), the search result is NOT strictly descending — stable insertion-order
tie-breaking forces a repeated score, so the claim's "strictly descending"
reading is false on this input. -/
theorem c5_counterexample_equal_scores_not_strict :
    search [1] 2 none [⟨"A", 0, [1]⟩, ⟨"A", 1, [1]⟩] =
      [(("A", 0), 1), (("A", 1), 1)] ∧
    strictlyDesc
        ((search [1] 2 none [⟨"A", 0, [1]⟩, ⟨"A", 1, [1]⟩]).map Prod.snd) =
      false :=
  ⟨by decide, by decide⟩

/-- C5 (amended, spec-modelled): search returns at most k results, sorted by
descending score (non-strictly) with ties broken by insertion order; the
ranked list is a permutation of the scored candidates, and every returned
element ranks at least as high as every candidate left out — the true top-k
for the exact linear scan. -/
theorem c5_retrieval_topk (q : List ℤ) (k : Nat) (f : Option String)
    (idx : List VecEntry) :
    (search q k f idx).length ≤ k ∧
    List.Sorted rankLE ((searchRanked q f idx).take k) ∧
    (searchRanked q f idx).Perm (scoredCandidates q f idx) ∧
    (∀ x ∈ (searchRanked q f idx).take k,
      ∀ y ∈ (searchRanked q f idx).drop k, rankLE x y) ∧
    search q k f idx = ((searchRanked q f idx).take k).map
      (fun e => ((e.entry.docId, e.entry.chunkPos), e.score)) := by
  refine ⟨?_, ?_, List.perm_insertionSort rankLE _, ?_, rfl⟩
  · unfold search
    rw [List.length_map, List.length_take]
    exact min_le_left _ _
  · exact List.Pairwise.sublist (List.take_sublist k _)
      (List.sorted_insertionSort rankLE _)
  · have hs : List.Pairwise rankLE
        ((searchRanked q f idx).take k ++ (searchRanked q f idx).drop k) := by
      rw [List.take_append_drop]
      exact List.sorted_insertionSort rankLE _
    exact fun x hx y hy => (List.pairwise_append.mp hs).2.2 x hx y hy

/-- Witness for C5: with a two-entry index and k = 1, the returned top
element ranks at least as high as the dropped one. -/
theorem c5_retrieval_topk_witness :
    ((⟨0, ⟨"A", 0, [2]⟩, 2⟩ : Scored) ∈
        (searchRanked [1] none [⟨"A", 0, [2]⟩, ⟨"B", 1, [1]⟩]).take 1) ∧
    ((⟨1, ⟨"B", 1, [1]⟩, 1⟩ : Scored) ∈
        (searchRanked [1] none [⟨"A", 0, [2]⟩, ⟨"B", 1, [1]⟩]).drop 1) ∧
    rankLE ⟨0, ⟨"A", 0, [2]⟩, 2⟩ ⟨1, ⟨"B", 1, [1]⟩, 1⟩ :=
  ⟨by decide, by decide,
   (c5_retrieval_topk [1] 1 none [⟨"A", 0, [2]⟩, ⟨"B", 1, [1]⟩]).2.2.2.1
     ⟨0, ⟨"A", 0, [2]⟩, 2⟩ (by decide) ⟨1, ⟨"B", 1, [1]⟩, 1⟩ (by decide)⟩

/-- C6 (spec-modelled): when retrieval yields no usable context, ask returns
a valid Answer — the decline text with an empty citation list — as a success,
not an error. -/
theorem c6_insufficient_context_declines (embed : String → Option (List ℤ))
    (generate : String → Option String) (s : BackendState) (question : String)
    (f : Option String) (k budget : Nat) (minScore : ℤ) (qv : List ℤ)
    (he : embed question = some qv)
    (hr : retrieve qv s k f minScore = []) :
    ask embed generate s question f k budget minScore =
      Except.ok ⟨declineText, []⟩ :=
  ask_decline_of_retrieve_empty embed generate s question f k budget minScore
    qv he hr

/-- Witness for C6: an empty backend retrieves nothing and ask declines with
no citations. -/
theorem c6_insufficient_context_declines_witness :
    ((fun _ : String => some [(1 : ℤ)]) "q" = some [1]) ∧
    (retrieve [1] ⟨[], []⟩ 5 none 0 = []) ∧
    ask (fun _ => some [1]) (fun _ => some "ans") ⟨[], []⟩ "q" none 5 100 0 =
      Except.ok ⟨declineText, []⟩ :=
  ⟨rfl, rfl,
   c6_insufficient_context_declines (fun _ => some [1]) (fun _ => some "ans")
     ⟨[], []⟩ "q" none 5 100 0 [1] rfl rfl⟩

/-- C7 counterexample: in a reachable state whose selection is the listed
document with the empty name, handleAskQuestion issues the ask request
WITHOUT the document field although a document is selected — the request does
not carry the filter exactly when one is selected. -/
theorem c7_counterexample_empty_name_filter_dropped :
    (⟨[], [⟨"", "t"⟩], "q", none, false, some ""⟩ : HomeState).selectedDocument ≠
      none ∧
    (handleAskQuestion ⟨[], [⟨"", "t"⟩], "q", none, false, some ""⟩
        ReqOutcome.failure).2 = [⟨"q", none⟩] :=
  ⟨by decide, by decide⟩

/-- C7 (amended): the ask request carries the document filter exactly when a
document with a NON-EMPTY name is selected (JS truthiness drops an
empty-string selection); with a filter, retrieval is restricted to chunks of
that document (in a well-formed store), and when the filtered document has no
content above the threshold, ask declines with no citations even if another
document holds the answer. -/
theorem c7_document_filter :
    (∀ s : String, s ≠ "" → requestFilter (some s) = some s) ∧
    requestFilter none = none ∧
    requestFilter (some "") = none ∧
    (∀ (qv : List ℤ) (bs : BackendState) (k : Nat) (d : String) (minScore : ℤ),
        WFStore bs →
        ∀ pr ∈ retrieve qv bs k (some d) minScore, pr.1.docId = d) ∧
    (∀ (embed : String → Option (List ℤ)) (generate : String → Option String)
        (bs : BackendState) (question d : String) (k budget : Nat)
        (minScore : ℤ) (qv : List ℤ),
        embed question = some qv →
        retrieve qv bs k (some d) minScore = [] →
        ask embed generate bs question (some d) k budget minScore =
          Except.ok ⟨declineText, []⟩) := by
  refine ⟨?_, rfl, rfl, ?_, ?_⟩
  · intro s hs
    simp [requestFilter, hs]
  · intro qv bs k d minScore hwf pr hpr
    exact retrieve_filter_docId qv bs k d minScore hwf pr hpr
  · intro embed generate bs question d k budget minScore qv he hr
    exact ask_decline_of_retrieve_empty embed generate bs question (some d) k
      budget minScore qv he hr

/-- Witness for C7: a non-empty selection is carried; retrieval filtered to
"A" on a store holding only "A" yields only "A"-chunks; filtered to the
content-free "B", ask declines. -/
theorem c7_document_filter_witness :
    ("B" ≠ "" ∧ requestFilter (some "B") = some "B") ∧
    (WFStore ⟨[⟨"A", .indexed, [⟨"A", 0, "alpha"⟩]⟩], [⟨"A", 0, [1]⟩]⟩ ∧
      (⟨"A", 0, "alpha"⟩, (1 : ℤ)) ∈
        retrieve [1] ⟨[⟨"A", .indexed, [⟨"A", 0, "alpha"⟩]⟩], [⟨"A", 0, [1]⟩]⟩
          5 (some "A") 0 ∧
      (⟨"A", 0, "alpha"⟩ : Chunk).docId = "A") ∧
    (retrieve [1] ⟨[⟨"A", .indexed, [⟨"A", 0, "alpha"⟩]⟩], [⟨"A", 0, [1]⟩]⟩
        5 (some "B") 0 = [] ∧
      ask (fun _ => some [1]) (fun _ => some "ans")
          ⟨[⟨"A", .indexed, [⟨"A", 0, "alpha"⟩]⟩], [⟨"A", 0, [1]⟩]⟩
          "q" (some "B") 5 100 0 = Except.ok ⟨declineText, []⟩) :=
  ⟨⟨by decide, c7_document_filter.1 "B" (by decide)⟩,
   ⟨by decide, by decide,
    c7_document_filter.2.2.2.1 [1]
      ⟨[⟨"A", .indexed, [⟨"A", 0, "alpha"⟩]⟩], [⟨"A", 0, [1]⟩]⟩ 5 "A" 0
      (by decide) (⟨"A", 0, "alpha"⟩, (1 : ℤ)) (by decide)⟩,
   ⟨rfl,
    c7_document_filter.2.2.2.2 (fun _ => some [1]) (fun _ => some "ans")
      ⟨[⟨"A", .indexed, [⟨"A", 0, "alpha"⟩]⟩], [⟨"A", 0, [1]⟩]⟩ "q" "B" 5 100 0
      [1] rfl rfl⟩⟩

/-- C8: question answering mutates nothing — the server-side ask leaves the
backend state unchanged, and handleAskQuestion leaves the document list, the
selection, the selected files and the question text unchanged whether the
request succeeds or fails (only answer and loading flag may change). -/
theorem c8_ask_no_mutation (s : HomeState) (o : ReqOutcome)
    (embed : String → Option (List ℤ)) (generate : String → Option String)
    (k budget : Nat) (minScore : ℤ) (bs : BackendState) (question : String)
    (f : Option String) :
    (serveAsk embed generate k budget minScore bs question f).1 = bs ∧
    (handleAskQuestion s o).1.documents = s.documents ∧
    (handleAskQuestion s o).1.selectedDocument = s.selectedDocument ∧
    (handleAskQuestion s o).1.files = s.files ∧
    (handleAskQuestion s o).1.question = s.question :=
  ⟨rfl, (handleAskQuestion_frame s o).2.1, (handleAskQuestion_frame s o).2.2.2,
   (handleAskQuestion_frame s o).1, (handleAskQuestion_frame s o).2.2.1⟩

/-- C9: a question that is empty or whitespace-only fails validation —
handleAskQuestion sends no request and leaves the whole component state (in
particular the displayed answer) unchanged. -/
theorem c9_blank_question_no_request (s : HomeState) (o : ReqOutcome)
    (h : s.question.data.all Char.isWhitespace = true) :
    handleAskQuestion s o = (s, []) := by
  unfold handleAskQuestion
  simp [h]

/-- Witness for C9: two spaces as the question. -/
theorem c9_blank_question_no_request_witness :
    ("  ".data.all Char.isWhitespace = true) ∧
    handleAskQuestion ⟨[], [], "  ", none, false, none⟩ ReqOutcome.failure =
      (⟨[], [], "  ", none, false, none⟩, []) :=
  ⟨by decide,
   c9_blank_question_no_request ⟨[], [], "  ", none, false, none⟩
     ReqOutcome.failure (by decide)⟩

/-- C10: the selection invariant — selectedDocument is null or the name of a
listed document — holds initially and is preserved by every operation of the
Home component (drop, upload, select, trash, ask, edit, summarize,
download). -/
theorem c10_selection_invariant :
    SelInv initialHomeState ∧
    ∀ (s : HomeState) (op : HomeOp), SelInv s → SelInv (applyHomeOp s op) :=
  ⟨(fun _ hn => nomatch hn), selInv_preserved⟩

/-- Witness for C10: deleting the selected document "A" keeps the
invariant (the selection resets to null). -/
theorem c10_selection_invariant_witness :
    SelInv ⟨[], [⟨"A", "t1"⟩], "q", none, false, some "A"⟩ ∧
    SelInv (applyHomeOp ⟨[], [⟨"A", "t1"⟩], "q", none, false, some "A"⟩
      (HomeOp.trash "A")) :=
  ⟨by decide,
   c10_selection_invariant.2 ⟨[], [⟨"A", "t1"⟩], "q", none, false, some "A"⟩
     (HomeOp.trash "A") (by decide)⟩

end SmartDoc
